import Mathlib

/-!
Verification of the meeting-note transcriber's chunked transcription pipeline.

This file shallowly embeds the program's core logic in Lean:
`services/geminiService.ts` (remote transcription and formatting wrappers),
`services/dbService.ts` (the keyed recording store), and the pipeline,
retry, edit, notes and vocabulary handlers of the main application
component.  Remote Gemini calls are abstracted as oracles: a per-call
`PromiseOutcome` (settles with text, settles with an error message, or
exceeds its timeout bound), or for the pipeline, a map from call number to
the `Except` result of `transcribeAudio`.  JavaScript string primitives
(`trim`, `toLowerCase`, `join`, `substring`, `String.prototype.replace`)
are embedded as executable functions over `String.data` character lists.
-/

namespace MeetingTranscriber

/-- JavaScript `String.prototype.trim`: strip whitespace from both ends. -/
def jsTrim (s : String) : String :=
  ⟨((s.data.dropWhile Char.isWhitespace).reverse.dropWhile Char.isWhitespace).reverse⟩

/-- JavaScript `String.prototype.toLowerCase` (ASCII-adequate model). -/
def jsToLower (s : String) : String :=
  ⟨s.data.map Char.toLower⟩

/-- JavaScript `Array.prototype.join(sep)`. -/
def jsJoin (sep : String) : List String → String
  | [] => ""
  | [s] => s
  | s :: rest => s ++ sep ++ jsJoin sep rest

/-- Whether `p` occurs as a contiguous substring of `l`. -/
def hasSub (p : List Char) : List Char → Bool
  | [] => p.isEmpty
  | c :: t => p.isPrefixOf (c :: t) || hasSub p t

/-- The check `error.message.includes('timed out')` used by `transcribeAudio`
to classify a failure as a timeout. -/
def containsTimedOut (m : String) : Bool :=
  hasSub "timed out".data m.data

/-- `types.ts`: `RecordingStatus`. -/
inductive RecordingStatus
  | new
  | transcribing
  | completed
  | failed
deriving DecidableEq, Repr

/-- `types.ts`: `ChunkStatus`. -/
inductive ChunkStatus
  | processing
  | completed
  | failed
deriving DecidableEq, Repr

/-- `types.ts`: `TranscriptChunk`. -/
structure TranscriptChunk where
  index : Nat
  content : String
  status : ChunkStatus
deriving DecidableEq, Repr

/-- The binary audio payload.  Bytes are irrelevant to the verified logic;
we keep the observable `size` and an opaque `data` token so that payload
identity is meaningful (e.g. for store-merge frame conditions). -/
structure Blob where
  size : Nat
  data : Nat
deriving DecidableEq, Repr

/-- `types.ts`: `Recording` (metadata plus the binary payload). -/
structure Recording where
  id : Nat
  name : String
  size : Nat
  mimeType : String
  status : RecordingStatus
  progress : Nat
  transcriptChunks : List TranscriptChunk
  formattedNotes : Option String
  blob : Blob
deriving DecidableEq, Repr

/-- `types.ts`: `VocabularyItem`. -/
structure VocabularyItem where
  id : Nat
  word : String
  description : String
deriving DecidableEq, Repr

instance {α β : Type} [DecidableEq α] [DecidableEq β] : DecidableEq (Except α β) := fun a b =>
  match a, b with
  | .ok x, .ok y => if h : x = y then .isTrue (by rw [h]) else .isFalse (by simp [h])
  | .error x, .error y => if h : x = y then .isTrue (by rw [h]) else .isFalse (by simp [h])
  | .ok _, .error _ => .isFalse (by simp)
  | .error _, .ok _ => .isFalse (by simp)

/-- Outcome of one remote `generateContent` promise: it settles with
response text, settles with an error message, or fails to settle within
the timeout bound it is raced against (`hang`). -/
inductive PromiseOutcome
  | ok (text : String)
  | err (msg : String)
  | hang
deriving DecidableEq, Repr

/-- `geminiService.ts` `withTimeout`: race the promise against a timer of
`ms` milliseconds that rejects with `errorMessage`. -/
def withTimeout (p : PromiseOutcome) (_ms : Nat) (errorMessage : String) :
    Except String String :=
  match p with
  | .ok t => .ok t
  | .err m => .error m
  | .hang => .error errorMessage

/-- Result of `transcribeAudio`: the value returned or error thrown, plus
the list of Gemini models actually called, in order. -/
structure TranscribeResult where
  result : Except String String
  modelsCalled : List String
deriving DecidableEq, Repr

/-- `geminiService.ts` `transcribeAudio`: first attempt against
`gemini-flash-lite-latest` with a 60 s bound; if the caught error's message
contains `'timed out'`, one retry against `gemini-2.5-pro` with a 120 s
bound; otherwise the error is rethrown.  The outer catch wraps any escaping
error message.  `firstAttempt` and `retryAttempt` are the outcomes of the
two possible remote promises. -/
def transcribeAudio (firstAttempt retryAttempt : PromiseOutcome) : TranscribeResult :=
  match withTimeout firstAttempt 60000
      "Transcription request timed out after 60 seconds." with
  | .ok t => ⟨.ok t, ["gemini-flash-lite-latest"]⟩
  | .error m =>
    if containsTimedOut m then
      match withTimeout retryAttempt 120000
          "Transcription retry request timed out after 120 seconds." with
      | .ok t => ⟨.ok t, ["gemini-flash-lite-latest", "gemini-2.5-pro"]⟩
      | .error m2 =>
        ⟨.error ("Error transcribing audio: " ++ m2),
          ["gemini-flash-lite-latest", "gemini-2.5-pro"]⟩
    else
      ⟨.error ("Error transcribing audio: " ++ m), ["gemini-flash-lite-latest"]⟩

/-- Result of `formatNotes`: the value returned or error thrown, plus how
many remote formatting calls were made. -/
structure FormatResult where
  result : Except String String
  remoteCalls : Nat
deriving DecidableEq, Repr

/-- `geminiService.ts` `formatNotes`: validation errors are thrown before
any remote call; a remote failure or timeout is converted into an error
description string returned as the ordinary result. -/
def formatNotes (transcription customInstruction _model : String)
    (remote : PromiseOutcome) : FormatResult :=
  if jsTrim transcription = "" then
    ⟨.error "Transcription is empty.", 0⟩
  else if jsTrim customInstruction = "" then
    ⟨.error "Custom instruction is empty.", 0⟩
  else
    match withTimeout remote 120000
        "Formatting notes request timed out after 120 seconds." with
    | .ok t => ⟨.ok t, 1⟩
    | .error m =>
      ⟨.ok ("Error formatting notes: " ++ m ++
        ". Please check the console for more details."), 1⟩

/-- `App.tsx`: `MAX_CHUNK_SIZE_BYTES = 10 * 1024 * 1024`. -/
def MAX_CHUNK_SIZE_BYTES : Nat := 10 * 1024 * 1024

/-- `App.tsx`: `HEADER_SIZE_BYTES = 10 * 1024`. -/
def HEADER_SIZE_BYTES : Nat := 10 * 1024

/-- `Math.ceil((size - H) / (M - H))`, the chunk count computed by
`processRecording` for an oversized payload.  The source fixes
`M = MAX_CHUNK_SIZE_BYTES` and `H = HEADER_SIZE_BYTES`; they are parameters
here so claims quantified over the constants can be stated. -/
def totalChunksOf (size M H : Nat) : Nat :=
  ((size - H) + (M - H) - 1) / (M - H)

/-- The byte range `[start, end)` of chunk `i`:
`start = i * (M - H)`, `end = min(start + (M - H), size)`. -/
def chunkRange (size M H i : Nat) : Nat × Nat :=
  let start := i * (M - H)
  (start, min (start + (M - H)) size)

/-- The full piece plan: the byte ranges of all `totalChunksOf` chunks. -/
def chunkRanges (size M H : Nat) : List (Nat × Nat) :=
  (List.range (totalChunksOf size M H)).map (chunkRange size M H)

/-- `dbService.ts`: the partial-update argument of `updateRecording`
(`Partial<Omit<Recording, 'id'>>`): each field is either absent or
supplies a replacement value.  `id` cannot appear. -/
structure RecordingUpdates where
  name : Option String := none
  size : Option Nat := none
  mimeType : Option String := none
  status : Option RecordingStatus := none
  progress : Option Nat := none
  transcriptChunks : Option (List TranscriptChunk) := none
  formattedNotes : Option String := none
  blob : Option Blob := none
deriving DecidableEq, Repr

/-- The object spread `{ ...data, ...updates }` performed by
`dbService.ts` `updateRecording`: fields present in `updates` override,
all others (including `id`) are taken from `data`. -/
def applyUpdates (data : Recording) (u : RecordingUpdates) : Recording :=
  { id := data.id
    name := u.name.getD data.name
    size := u.size.getD data.size
    mimeType := u.mimeType.getD data.mimeType
    status := u.status.getD data.status
    progress := u.progress.getD data.progress
    transcriptChunks := u.transcriptChunks.getD data.transcriptChunks
    formattedNotes := (u.formattedNotes.map some).getD data.formattedNotes
    blob := u.blob.getD data.blob }

/-- The IndexedDB `recordings` object store, keyed by `id`. -/
def RecordingStore : Type := Nat → Option Recording

/-- `dbService.ts` `updateRecording(id, updates)`: fetch the record by key;
if present, put back the spread-merged record (stored under its `keyPath`
field `id`); if absent, reject with `'Recording not found for update.'`
leaving the store untouched.  Returns the resulting store and the
promise's resolution. -/
def updateRecording (store : RecordingStore) (id : Nat) (updates : RecordingUpdates) :
    RecordingStore × Except String Unit :=
  match store id with
  | some data =>
    let updatedData := applyUpdates data updates
    (fun k => if k = updatedData.id then some updatedData else store k, .ok ())
  | none => (store, .error "Recording not found for update.")

/-- Chunk `i`, settled from one `transcribeAudio` result: on success the
chunk holds the trimmed transcript and is `completed`, on failure it holds
the error message and is `failed`. -/
def settleChunk (i : Nat) (outcome : Except String String) : TranscriptChunk :=
  match outcome with
  | .ok t => ⟨i, jsTrim t, .completed⟩
  | .error m => ⟨i, m, .failed⟩

/-- The in-memory chunk array right after initialization: every chunk
`processing` with empty content. -/
def initialChunks (n : Nat) : List TranscriptChunk :=
  (List.range n).map (fun i => ⟨i, "", .processing⟩)

/-- The not-yet-attempted suffix of the chunk array (indices `j`,
`j+1`, …, `total-1`), still in its initialized state. -/
def suffixFrom (j total : Nat) : List TranscriptChunk :=
  (List.range' j (total - j)).map (fun k => ⟨k, "", .processing⟩)

/-- `Math.round(((i1) / total) * 95)` on exact rationals
(`i1` = number of chunks attempted so far). -/
def jsRound95 (i1 total : Nat) : Nat :=
  (190 * i1 + total) / (2 * total)

/-- State threaded through the multi-chunk loop of `processRecording`. -/
structure LoopOut where
  chunks : List TranscriptChunk
  calls : Nat
  record : Recording
  trace : List Recording
deriving Repr

/-- The `for (let i = 0; ...)` loop of `processRecording`'s multi-chunk
branch.  `ranges` are the byte ranges still to process, `i` the current
chunk index, `done` the already-settled chunks in reverse order, `calls`
the number of `transcribeAudio` calls made so far (`oracle calls` is the
next call's result), `rec` the currently persisted recording and `trace`
the persisted snapshots so far in reverse order.  A zero-byte chunk is
marked `completed` and `continue` skips that iteration's persist;
otherwise the chunk is settled from the oracle and the full chunk array
plus rounded progress are persisted. -/
def runChunksLoop (oracle : Nat → Except String String) (total : Nat) :
    List (Nat × Nat) → Nat → List TranscriptChunk → Nat → Recording →
    List Recording → LoopOut
  | [], _i, done, calls, rec, trace => ⟨done.reverse, calls, rec, trace.reverse⟩
  | r :: rs, i, done, calls, rec, trace =>
    if r.2 ≤ r.1 then
      runChunksLoop oracle total rs (i + 1) (⟨i, "", .completed⟩ :: done) calls rec trace
    else
      let chunk := settleChunk i (oracle calls)
      let done' := chunk :: done
      let snapshot := done'.reverse ++ suffixFrom (i + 1) total
      let rec' := applyUpdates rec
        { transcriptChunks := some snapshot, progress := some (jsRound95 (i + 1) total) }
      runChunksLoop oracle total rs (i + 1) done' (calls + 1) rec' (rec' :: trace)

/-- Observable outcome of one `processRecording(id)` run: the finally
persisted recording (`none` when the id was absent and nothing was
persisted), the number of `transcribeAudio` calls made, the user-facing
error set by the outer catch (if any), and every persisted snapshot in
order. -/
structure RunResult where
  finalRec : Option Recording
  remoteCalls : Nat
  uiError : Option String
  persistTrace : List Recording
deriving Repr

/-- `App.tsx` `processRecording`, with the remote service abstracted as
`oracle : Nat → Except String String` mapping the k-th `transcribeAudio`
call of the run to its result.  `r0` is the recording loaded from the
store (or `none`); persistence (`updateRecording` on this id followed by a
UI reload) is modelled by threading the merged recording and recording
each persisted snapshot.  The source fixes `M = MAX_CHUNK_SIZE_BYTES`,
`H = HEADER_SIZE_BYTES`. -/
def processRecording (M H : Nat) (r0 : Option Recording)
    (oracle : Nat → Except String String) : RunResult :=
  match r0 with
  | none =>
    ⟨none, 0, some ("Processing failed: Recording not found in database." ++
      ". The file might be too large or in an unsupported format."), []⟩
  | some recording =>
    if recording.status = RecordingStatus.completed ∧ 0 < recording.transcriptChunks.length then
      ⟨some recording, 0, none, []⟩
    else
      let r1 := applyUpdates recording
        { status := some .transcribing, progress := some 5, transcriptChunks := some [] }
      if recording.blob.size ≤ M then
        let r2 := applyUpdates r1 { progress := some 10 }
        match oracle 0 with
        | .ok t =>
          let completedChunk : TranscriptChunk := ⟨0, jsTrim t, .completed⟩
          let r3 := applyUpdates r2
            { transcriptChunks := some [completedChunk], status := some .completed,
              progress := some 100 }
          ⟨some r3, 1, none, [r1, r2, r3]⟩
        | .error m =>
          let failedChunk : TranscriptChunk := ⟨0, m, .failed⟩
          let r3 := applyUpdates r2
            { transcriptChunks := some [failedChunk], status := some .failed,
              progress := some 100 }
          let r4 := applyUpdates r3 { status := some .failed, progress := some 0 }
          ⟨some r4, 1,
            some ("Processing failed: " ++ m ++
              ". The file might be too large or in an unsupported format."),
            [r1, r2, r3, r4]⟩
      else
        let total := totalChunksOf recording.blob.size M H
        let r2 := applyUpdates r1
          { transcriptChunks := some (initialChunks total), progress := some 10 }
        let out := runChunksLoop oracle total (chunkRanges recording.blob.size M H)
          0 [] 0 r2 []
        let allSucceeded := out.chunks.all (fun c => c.status == ChunkStatus.completed)
        let r4 := applyUpdates out.record
          { status := some (if allSucceeded then .completed else .failed),
            progress := some 100 }
        ⟨some r4, out.calls, none, [r1, r2] ++ out.trace ++ [r4]⟩

/-- `App.tsx` `handleRetryChunkTranscription`, acting on the in-memory
chunk array: the addressed chunk is marked `processing`, the chunk's byte
range (plus prepended header when `chunkIndex > 0` on an oversized
payload) is resubmitted — abstracted by `outcome`, the `transcribeAudio`
result — and the addressed chunk alone is settled; siblings are untouched.
The persisted update writes exactly the returned array. -/
def handleRetryChunkTranscription (chunks : List TranscriptChunk) (chunkIndex : Nat)
    (outcome : Except String String) : List TranscriptChunk :=
  let updatedChunks := chunks.map (fun c =>
    if c.index = chunkIndex then { c with status := ChunkStatus.processing } else c)
  match outcome with
  | .ok t => updatedChunks.map (fun c =>
      if c.index = chunkIndex then
        { c with status := ChunkStatus.completed, content := jsTrim t }
      else c)
  | .error m => chunks.map (fun c =>
      if c.index = chunkIndex then
        { c with status := ChunkStatus.failed, content := m }
      else c)

/-- `App.tsx` `handleGenerateNotes`: the transcript submitted to the
notes-formatting stage, `transcriptChunks.map(c => c.content).join(' ')`. -/
def fullTranscriptOf (chunks : List TranscriptChunk) : String :=
  jsJoin " " (chunks.map (fun c => c.content))

/-- `App.tsx` `handleGenerateNotes`: refuse when the joined transcript is
empty, otherwise format it via one remote call. -/
def handleGenerateNotes (chunks : List TranscriptChunk) (instruction model : String)
    (remote : PromiseOutcome) : FormatResult :=
  let fullTranscript := fullTranscriptOf chunks
  if fullTranscript = "" then ⟨.error "There is no transcript to process.", 0⟩
  else formatNotes fullTranscript instruction model remote

/-- The character class `[.*+?^${}()|[\]\\]` escaped by `escapeRegExp`
(braces written as code points 123 and 125). -/
def regexSpecialChars : List Char :=
  ['.', '*', '+', '?', '^', '$', '\x7b', '\x7d', '(', ')', '|', '[', ']', '\\']

/-- `App.tsx` `escapeRegExp`:
`string.replace(/[.*+?^${}()|[\]\\]/g, '\\$&')` — prefix every
regex-special character with a backslash. -/
def escapeRegExp (s : String) : String :=
  ⟨s.data.foldr (fun c acc =>
    if c ∈ regexSpecialChars then '\\' :: c :: acc else c :: acc) []⟩

/-- Interpretation of the regex source strings produced by `escapeRegExp`:
a pattern in which every regex-special character is backslash-escaped and
every other character is a plain literal denotes the literal character
sequence it spells.  Returns `none` on any pattern outside this fragment. -/
def parseEscapedLiteral : List Char → Option (List Char)
  | [] => some []
  | c :: rest =>
    if c = '\\' then
      match rest with
      | [] => none
      | d :: rest2 =>
        if d ∈ regexSpecialChars then (parseEscapedLiteral rest2).map (d :: ·) else none
    else
      if c ∈ regexSpecialChars then none else (parseEscapedLiteral rest).map (c :: ·)

/-- The backquote character, `$`-escape for the portion before a match. -/
def backquoteChar : Char := Char.ofNat 96

/-- The single-quote character, `$`-escape for the portion after a match. -/
def singleQuoteChar : Char := Char.ofNat 39

/-- ECMAScript `GetSubstitution` for a replacement string against a
pattern with no capture groups: `$$` inserts `$`, `$&` the matched text,
a `$`-backquote the text before the match, a `$`-quote the text after it;
any other `$` sequence (including `$1` — there are no groups) is literal. -/
def getSubstitution (matched preceding following : List Char) : List Char → List Char
  | [] => []
  | c :: rest =>
    if c = '$' then
      match rest with
      | [] => ['$']
      | d :: rest2 =>
        if d = '$' then '$' :: getSubstitution matched preceding following rest2
        else if d = '&' then matched ++ getSubstitution matched preceding following rest2
        else if d = backquoteChar then preceding ++ getSubstitution matched preceding following rest2
        else if d = singleQuoteChar then following ++ getSubstitution matched preceding following rest2
        else '$' :: d :: getSubstitution matched preceding following rest2
    else c :: getSubstitution matched preceding following rest

/-- Position of the first occurrence of `needle` in `hay`, if any. -/
def findSub (needle : List Char) : List Char → Option Nat
  | [] => if needle.isEmpty then some 0 else none
  | c :: t =>
    if needle.isPrefixOf (c :: t) then some 0 else (findSub needle t).map (· + 1)

/-- `String.prototype.replace` with a global literal pattern: repeatedly
find the leftmost occurrence of `needle` in the unprocessed suffix `rem`,
emit the `GetSubstitution`-expanded replacement, and continue after the
match (advancing one character after an empty match, per the `lastIndex`
rule).  `before` is the already-scanned prefix of the original string
(`$`-context is taken from the original).  `fuel` bounds the recursion and
is never exhausted when `fuel > rem.length`. -/
def jsReplaceGlobalAux (needle repl : List Char) :
    Nat → List Char → List Char → List Char
  | 0, _before, rem => rem
  | fuel + 1, before, rem =>
    match findSub needle rem with
    | none => rem
    | some k =>
      let preceding := before ++ rem.take k
      let following := rem.drop (k + needle.length)
      let expansion := getSubstitution needle preceding following repl
      if needle.length = 0 then
        match rem with
        | [] => expansion
        | c :: rest =>
          expansion ++ c :: jsReplaceGlobalAux needle repl fuel (before ++ [c]) rest
      else
        rem.take k ++ expansion ++
          jsReplaceGlobalAux needle repl fuel (before ++ rem.take (k + needle.length)) following

/-- `hay.replace(new RegExp(needle-as-literal, 'g'), repl)`. -/
def jsReplaceGlobal (hay needle repl : String) : String :=
  ⟨jsReplaceGlobalAux needle.data repl.data (hay.data.length + 1) [] hay.data⟩

/-- `content.replace(new RegExp(escapeRegExp(oldText), 'g'), newText)`:
the pattern source compiled by `new RegExp` is `escapeRegExp oldText`,
which always parses as an escaped literal (so compilation cannot throw and
the regex matches exactly the literal `oldText`); the replacement is the
global literal replace with JavaScript `$`-expansion.  The `none` branch
is unreachable (`parseEscapedLiteral_escapeRegExp`). -/
def replaceWithEscapedRegex (content oldText newText : String) : String :=
  match parseEscapedLiteral (escapeRegExp oldText).data with
  | some lit => jsReplaceGlobal content ⟨lit⟩ newText
  | none => content

/-- The spec's `replaceAll` semantics (§4.5): every literal occurrence of
the old text is replaced by the new text, scanning leftmost and
non-overlapping, the replacement inserted verbatim. -/
def replaceAllLiteralSpecAux (needle repl : List Char) : Nat → List Char → List Char
  | 0, rem => rem
  | fuel + 1, rem =>
    match findSub needle rem with
    | none => rem
    | some k =>
      if needle.length = 0 then
        match rem with
        | [] => repl
        | c :: rest => repl ++ c :: replaceAllLiteralSpecAux needle repl fuel rest
      else
        rem.take k ++ repl ++
          replaceAllLiteralSpecAux needle repl fuel (rem.drop (k + needle.length))

/-- Spec-side literal global replacement over strings. -/
def replaceAllLiteralSpec (hay needle repl : String) : String :=
  ⟨replaceAllLiteralSpecAux needle.data repl.data (hay.data.length + 1) hay.data⟩

/-- JavaScript `String.prototype.substring(a, b)` (clamps both indices to
the string length and swaps them when out of order). -/
def jsSubstring (s : String) (a b : Nat) : String :=
  let len := s.data.length
  let a' := min a len
  let b' := min b len
  ⟨(s.data.take (max a' b')).drop (min a' b')⟩

/-- JavaScript `String.prototype.substring(a)` (one-argument form). -/
def jsSubstringFrom (s : String) (a : Nat) : String :=
  ⟨s.data.drop (min a s.data.length)⟩

/-- `List.map` with the positional index starting from `i`. -/
def mapWithIndexFrom {α β : Type} (f : Nat → α → β) : Nat → List α → List β
  | _, [] => []
  | i, a :: t => f i a :: mapWithIndexFrom f (i + 1) t

/-- `List.map` with the positional index, as JavaScript
`array.map((x, index) => ...)`. -/
def mapWithIndex {α β : Type} (f : Nat → α → β) (l : List α) : List β :=
  mapWithIndexFrom f 0 l

/-- The vocabulary updater shared by `handleEditAndUpdateVocabulary` and
`handleNoteEditAndUpdateVocabulary`: derive the candidate entry
(`word = newText.trim()`, `description = 'Corrected from "<oldText.trim()>"'`,
`id` = current timestamp `now`) and append it unless an existing item's
word matches case-insensitively. -/
def deriveVocabulary (vocabulary : List VocabularyItem) (oldText newText : String)
    (now : Nat) : List VocabularyItem :=
  let trimmedNewText := jsTrim newText
  if vocabulary.any (fun item => jsToLower item.word == jsToLower trimmedNewText) then
    vocabulary
  else
    vocabulary ++ [⟨now, trimmedNewText, "Corrected from \"" ++ jsTrim oldText ++ "\""⟩]

/-- Combined result of a transcript edit: the new chunk array (persisted
verbatim) and the new vocabulary list. -/
structure EditResult where
  chunks : List TranscriptChunk
  vocabulary : List VocabularyItem
deriving DecidableEq, Repr

/-- `App.tsx` `handleEditAndUpdateVocabulary`: no-op when `newText` trims
to empty; otherwise in `replaceAll` mode every chunk's content undergoes
the escaped-regex global replace, in single-occurrence mode only the chunk
at position `chunkIndex` has its `[start, stop)` range spliced; then the
vocabulary is updated when `addToVocabulary` is set. -/
def handleEditAndUpdateVocabulary (chunks : List TranscriptChunk)
    (vocabulary : List VocabularyItem) (oldText newText : String)
    (replaceAll addToVocabulary : Bool) (chunkIndex start stop now : Nat) : EditResult :=
  if jsTrim newText = "" then ⟨chunks, vocabulary⟩
  else
    let newChunks := mapWithIndex (fun index chunk =>
      let newContent :=
        if replaceAll then replaceWithEscapedRegex chunk.content oldText newText
        else if index = chunkIndex then
          jsSubstring chunk.content 0 start ++ newText ++ jsSubstringFrom chunk.content stop
        else chunk.content
      { chunk with content := newContent }) chunks
    let newVocabulary :=
      if addToVocabulary then deriveVocabulary vocabulary oldText newText now else vocabulary
    ⟨newChunks, newVocabulary⟩

/-- `App.tsx` `handleNoteEditAndUpdateVocabulary`: same two modes applied
to the whole notes text, plus the same vocabulary update. -/
def handleNoteEditAndUpdateVocabulary (generatedNotes : String)
    (vocabulary : List VocabularyItem) (oldText newText : String)
    (replaceAll addToVocabulary : Bool) (start stop now : Nat) :
    String × List VocabularyItem :=
  if jsTrim newText = "" then (generatedNotes, vocabulary)
  else
    let updatedNotes :=
      if replaceAll then replaceWithEscapedRegex generatedNotes oldText newText
      else jsSubstring generatedNotes 0 start ++ newText ++ jsSubstringFrom generatedNotes stop
    let newVocabulary :=
      if addToVocabulary then deriveVocabulary vocabulary oldText newText now else vocabulary
    (updatedNotes, newVocabulary)

/-! ## Theorems -/

/-- C1.  The claim asserts that for `totalSize > MAX_PIECE_SIZE` the piece
ranges cover `[0, totalSize)` with no gaps.  The code computes the piece
count as `ceil((totalSize - HEADER_SIZE) / STEP)` but advances ranges by
`STEP` from offset 0, so whenever `totalSize - HEADER_SIZE` is an exact
multiple of `STEP` the final `HEADER_SIZE` bytes of the payload fall in no
piece.  Witnessed at `totalSize = HEADER_SIZE_BYTES + 2 * STEP = 20961280`
with the program's constants: the plan has 2 pieces ending at byte
20951040, and byte 20951040 (among the last 10240 bytes) lies in no piece
although it is below `totalSize`. -/
theorem c1_splitter_drops_trailing_bytes :
    MAX_CHUNK_SIZE_BYTES < 20961280 ∧
    HEADER_SIZE_BYTES < MAX_CHUNK_SIZE_BYTES ∧
    totalChunksOf 20961280 MAX_CHUNK_SIZE_BYTES HEADER_SIZE_BYTES = 2 ∧
    chunkRanges 20961280 MAX_CHUNK_SIZE_BYTES HEADER_SIZE_BYTES =
      [(0, 10475520), (10475520, 20951040)] ∧
    20951040 < 20961280 ∧
    ∀ r ∈ chunkRanges 20961280 MAX_CHUNK_SIZE_BYTES HEADER_SIZE_BYTES,
      ¬ (r.1 ≤ 20951040 ∧ 20951040 < r.2) := by
  decide

/-- C3.  Invoking the pipeline on a recording whose persisted status is
`completed` with a non-empty chunk array short-circuits: zero remote
calls, no persisted writes, no error, and the recording (with its piece
content) is returned exactly as stored. -/
theorem c3_idempotent_reselection (M H : Nat) (r : Recording)
    (oracle : Nat → Except String String)
    (hc : r.status = RecordingStatus.completed)
    (hn : 0 < r.transcriptChunks.length) :
    processRecording M H (some r) oracle = ⟨some r, 0, none, []⟩ := by
  simp [processRecording, hc, hn]

/-- Witness for `c3_idempotent_reselection` at a concrete completed
recording. -/
theorem c3_idempotent_reselection_witness :
    (⟨5, "meeting", 3, "audio/webm", .completed, 100,
        [⟨0, "transcript", .completed⟩], none, ⟨3, 0⟩⟩ : Recording).status =
      RecordingStatus.completed ∧
    0 < (⟨5, "meeting", 3, "audio/webm", .completed, 100,
        [⟨0, "transcript", .completed⟩], none, ⟨3, 0⟩⟩ : Recording).transcriptChunks.length ∧
    processRecording MAX_CHUNK_SIZE_BYTES HEADER_SIZE_BYTES
      (some ⟨5, "meeting", 3, "audio/webm", .completed, 100,
        [⟨0, "transcript", .completed⟩], none, ⟨3, 0⟩⟩)
      (fun _ => .ok "fresh") =
      ⟨some ⟨5, "meeting", 3, "audio/webm", .completed, 100,
        [⟨0, "transcript", .completed⟩], none, ⟨3, 0⟩⟩, 0, none, []⟩ :=
  ⟨rfl, by decide,
    c3_idempotent_reselection MAX_CHUNK_SIZE_BYTES HEADER_SIZE_BYTES _ _ rfl (by decide)⟩

/-- C4 counterexample.  In the embedding a timeout is the promise failing
to settle within its bound (`hang`); a remote failure that settles is
`err`.  The code classifies failures by `error.message.includes('timed
out')`, so a *non-timeout* remote error whose message happens to contain
`'timed out'` is retried against the stronger model (two models called,
and the error is swallowed by the successful retry) — contradicting the
claim that a non-timeout error propagates immediately with no retry. -/
theorem c4_counterexample :
    containsTimedOut "upstream connection timed out" = true ∧
    transcribeAudio (PromiseOutcome.err "upstream connection timed out")
        (PromiseOutcome.ok "hello") =
      ⟨.ok "hello", ["gemini-flash-lite-latest", "gemini-2.5-pro"]⟩ := by
  decide

/-- C4 as amended: a first attempt exceeding its 60 s bound is retried
exactly once against `gemini-2.5-pro` under the 120 s bound, and only then
is a final timeout error surfaced; a first-attempt failure whose message
does not contain `'timed out'` — the code's timeout classifier —
propagates immediately with no retry; a successful first attempt makes a
single call. -/
theorem c4_escalation_classified_by_message (firstAttempt retryAttempt : PromiseOutcome) :
    (firstAttempt = PromiseOutcome.hang →
      (transcribeAudio firstAttempt retryAttempt).modelsCalled =
        ["gemini-flash-lite-latest", "gemini-2.5-pro"] ∧
      (∀ t, retryAttempt = PromiseOutcome.ok t →
        (transcribeAudio firstAttempt retryAttempt).result = .ok t) ∧
      (retryAttempt = PromiseOutcome.hang →
        (transcribeAudio firstAttempt retryAttempt).result =
          .error "Error transcribing audio: Transcription retry request timed out after 120 seconds.") ∧
      (∀ m, retryAttempt = PromiseOutcome.err m →
        (transcribeAudio firstAttempt retryAttempt).result =
          .error ("Error transcribing audio: " ++ m))) ∧
    (∀ m, firstAttempt = PromiseOutcome.err m → containsTimedOut m = false →
      transcribeAudio firstAttempt retryAttempt =
        ⟨.error ("Error transcribing audio: " ++ m), ["gemini-flash-lite-latest"]⟩) ∧
    (∀ t, firstAttempt = PromiseOutcome.ok t →
      transcribeAudio firstAttempt retryAttempt = ⟨.ok t, ["gemini-flash-lite-latest"]⟩) := by
  have htm : containsTimedOut "Transcription request timed out after 60 seconds." = true := by
    decide
  refine ⟨?_, ?_, ?_⟩
  · rintro rfl
    refine ⟨?_, ?_, ?_, ?_⟩
    · cases retryAttempt <;> simp [transcribeAudio, withTimeout, htm]
    · rintro t rfl; simp [transcribeAudio, withTimeout, htm]
    · rintro rfl; simp [transcribeAudio, withTimeout, htm]
    · rintro m rfl; simp [transcribeAudio, withTimeout, htm]
  · rintro m rfl hm; simp [transcribeAudio, withTimeout, hm]
  · rintro t rfl; simp [transcribeAudio, withTimeout]

/-- Witness for `c4_escalation_classified_by_message`: a double timeout
surfaces the final retry-timeout error, and a remote error message not
containing the marker propagates unretried. -/
theorem c4_escalation_classified_by_message_witness :
    (transcribeAudio PromiseOutcome.hang PromiseOutcome.hang).result =
      .error "Error transcribing audio: Transcription retry request timed out after 120 seconds." ∧
    containsTimedOut "quota exceeded" = false ∧
    transcribeAudio (PromiseOutcome.err "quota exceeded") (PromiseOutcome.ok "x") =
      ⟨.error "Error transcribing audio: quota exceeded", ["gemini-flash-lite-latest"]⟩ :=
  ⟨((c4_escalation_classified_by_message .hang .hang).1 rfl).2.2.1 rfl, by decide,
    (c4_escalation_classified_by_message _ _).2.1 "quota exceeded" rfl (by decide)⟩

/-- C6.  `formatNotes` throws a validation error before any remote call
when the transcript or instruction is empty or whitespace-only; on
non-empty inputs it returns the response text on success and returns (not
throws) an error description string on remote failure or timeout. -/
theorem c6_formatNotes_validation_and_error_string
    (transcription customInstruction model : String) (remote : PromiseOutcome) :
    (jsTrim transcription = "" →
      formatNotes transcription customInstruction model remote =
        ⟨.error "Transcription is empty.", 0⟩) ∧
    (jsTrim transcription ≠ "" → jsTrim customInstruction = "" →
      formatNotes transcription customInstruction model remote =
        ⟨.error "Custom instruction is empty.", 0⟩) ∧
    (jsTrim transcription ≠ "" → jsTrim customInstruction ≠ "" →
      (∀ t, remote = PromiseOutcome.ok t →
        formatNotes transcription customInstruction model remote = ⟨.ok t, 1⟩) ∧
      (∀ m, remote = PromiseOutcome.err m →
        formatNotes transcription customInstruction model remote =
          ⟨.ok ("Error formatting notes: " ++ m ++
            ". Please check the console for more details."), 1⟩) ∧
      (remote = PromiseOutcome.hang →
        formatNotes transcription customInstruction model remote =
          ⟨.ok ("Error formatting notes: Formatting notes request timed out after 120 seconds." ++
            ". Please check the console for more details."), 1⟩)) := by
  refine ⟨?_, ?_, ?_⟩
  · intro h1; simp [formatNotes, h1]
  · intro h1 h2; simp [formatNotes, h1, h2]
  · intro h1 h2
    refine ⟨?_, ?_, ?_⟩
    · rintro t rfl; simp [formatNotes, withTimeout, h1, h2]
    · rintro m rfl; simp [formatNotes, withTimeout, h1, h2]
    · rintro rfl; simp [formatNotes, withTimeout, h1, h2]

/-- Witness for `c6_formatNotes_validation_and_error_string`: a
whitespace-only transcript is rejected with zero remote calls, and a
remote failure on valid inputs comes back as an `ok` error-description
string. -/
theorem c6_formatNotes_validation_and_error_string_witness :
    jsTrim "  " = "" ∧
    formatNotes "  " "summarize" "gemini-2.5-flash" (PromiseOutcome.ok "x") =
      ⟨.error "Transcription is empty.", 0⟩ ∧
    jsTrim "hello world" ≠ "" ∧ jsTrim "summarize" ≠ "" ∧
    formatNotes "hello world" "summarize" "gemini-2.5-flash" (PromiseOutcome.err "boom") =
      ⟨.ok "Error formatting notes: boom. Please check the console for more details.", 1⟩ :=
  ⟨by decide,
    (c6_formatNotes_validation_and_error_string "  " "summarize" "gemini-2.5-flash"
      (PromiseOutcome.ok "x")).1 (by decide),
    by decide, by decide,
    ((c6_formatNotes_validation_and_error_string "hello world" "summarize" "gemini-2.5-flash"
      (PromiseOutcome.err "boom")).2.2 (by decide) (by decide)).2.1 "boom" rfl⟩

/-- C8.  `handleGenerateNotes` joins every chunk's `content` with a space,
regardless of status, so a failed piece's stored error description is
concatenated into the transcript submitted to the notes stage —
contradicting the invariant that failed-piece content must not reach the
final transcript.  Evaluated at a run with one completed and one failed
piece. -/
theorem c8_failed_piece_content_reaches_notes :
    (([⟨0, "hello", .completed⟩, ⟨1, "Error transcribing audio: boom", .failed⟩] :
        List TranscriptChunk).any (fun c => c.status == ChunkStatus.failed)) = true ∧
    fullTranscriptOf
        [⟨0, "hello", .completed⟩, ⟨1, "Error transcribing audio: boom", .failed⟩] =
      "hello Error transcribing audio: boom" ∧
    hasSub "Error transcribing audio: boom".data
      (fullTranscriptOf
        [⟨0, "hello", .completed⟩, ⟨1, "Error transcribing audio: boom", .failed⟩]).data = true := by
  decide

/-- C5 counterexample.  The claim asserts that after a single-piece remote
failure the recording is persisted with `status=failed, progress=100` *as
its final state*.  In the code the inner catch persists
`{failed, progress:100}` and rethrows; the run-level catch then persists
`{failed, progress:0}`, so the final persisted progress is 0, not 100.
Evaluated at a 1000-byte recording whose one remote call fails. -/
theorem c5_counterexample :
    1000 ≤ MAX_CHUNK_SIZE_BYTES ∧
    (processRecording MAX_CHUNK_SIZE_BYTES HEADER_SIZE_BYTES
        (some ⟨1, "rec", 1000, "audio/webm", .new, 0, [], none, ⟨1000, 0⟩⟩)
        (fun _ => .error "boom")).finalRec =
      some ⟨1, "rec", 1000, "audio/webm", .failed, 0, [⟨0, "boom", .failed⟩], none, ⟨1000, 0⟩⟩ ∧
    (0 : Nat) ≠ 100 := by
  decide

/-- C5 as amended: in single-piece mode a remote failure marks piece 0
`failed` with the error message and persists `status=failed,
progress=100`; the rethrown error then reaches the run-level handler,
which persists `status=failed, progress=0` as the final state and surfaces
a user-facing error message (the error is contained there, not rethrown to
the pipeline's caller). -/
theorem c5_single_piece_failure (M H : Nat) (r : Recording) (m : String)
    (oracle : Nat → Except String String)
    (hstat : ¬ (r.status = RecordingStatus.completed ∧ 0 < r.transcriptChunks.length))
    (hsize : r.blob.size ≤ M)
    (ho : oracle 0 = .error m) :
    processRecording M H (some r) oracle =
      ⟨some { r with status := .failed, progress := 0, transcriptChunks := [⟨0, m, .failed⟩] },
        1,
        some ("Processing failed: " ++ m ++
          ". The file might be too large or in an unsupported format."),
        [{ r with status := .transcribing, progress := 5, transcriptChunks := [] },
         { r with status := .transcribing, progress := 10, transcriptChunks := [] },
         { r with status := .failed, progress := 100, transcriptChunks := [⟨0, m, .failed⟩] },
         { r with status := .failed, progress := 0, transcriptChunks := [⟨0, m, .failed⟩] }]⟩ := by
  simp [processRecording, hstat, hsize, ho, applyUpdates]

/-- Witness for `c5_single_piece_failure` at a concrete small recording
whose one remote call fails with `"boom"`. -/
theorem c5_single_piece_failure_witness :
    (¬ ((⟨1, "rec", 1000, "audio/webm", .new, 0, [], none, ⟨1000, 0⟩⟩ : Recording).status =
        RecordingStatus.completed ∧
        0 < (⟨1, "rec", 1000, "audio/webm", .new, 0, [], none,
          ⟨1000, 0⟩⟩ : Recording).transcriptChunks.length)) ∧
    (⟨1, "rec", 1000, "audio/webm", .new, 0, [], none, ⟨1000, 0⟩⟩ : Recording).blob.size ≤
      MAX_CHUNK_SIZE_BYTES ∧
    processRecording MAX_CHUNK_SIZE_BYTES HEADER_SIZE_BYTES
        (some ⟨1, "rec", 1000, "audio/webm", .new, 0, [], none, ⟨1000, 0⟩⟩)
        (fun _ => .error "boom") =
      ⟨some ⟨1, "rec", 1000, "audio/webm", .failed, 0, [⟨0, "boom", .failed⟩], none, ⟨1000, 0⟩⟩,
        1,
        some "Processing failed: boom. The file might be too large or in an unsupported format.",
        [⟨1, "rec", 1000, "audio/webm", .transcribing, 5, [], none, ⟨1000, 0⟩⟩,
         ⟨1, "rec", 1000, "audio/webm", .transcribing, 10, [], none, ⟨1000, 0⟩⟩,
         ⟨1, "rec", 1000, "audio/webm", .failed, 100, [⟨0, "boom", .failed⟩], none, ⟨1000, 0⟩⟩,
         ⟨1, "rec", 1000, "audio/webm", .failed, 0, [⟨0, "boom", .failed⟩], none, ⟨1000, 0⟩⟩]⟩ :=
  ⟨by decide, by decide,
    c5_single_piece_failure MAX_CHUNK_SIZE_BYTES HEADER_SIZE_BYTES _ "boom" _
      (by decide) (by decide) rfl⟩

/-- Every piece of the plan for an oversized payload has a non-empty byte
range (so the loop's zero-size `continue` branch is never taken). -/
theorem chunkRanges_nonzero (size M H : Nat) (hHM : H < M) (hMs : M < size) :
    ∀ q ∈ chunkRanges size M H, q.1 < q.2 := by
  intro q hq
  simp only [chunkRanges, List.mem_map, List.mem_range] at hq
  obtain ⟨i, hi, rfl⟩ := hq
  simp only [chunkRange]
  have hS : 0 < M - H := by omega
  have h1 : totalChunksOf size M H * (M - H) ≤ (size - H) + (M - H) - 1 := by
    simp only [totalChunksOf]
    exact Nat.div_mul_le_self _ _
  have h3 : (i + 1) * (M - H) ≤ totalChunksOf size M H * (M - H) :=
    Nat.mul_le_mul_right _ hi
  rw [Nat.succ_mul] at h3
  apply lt_min
  · omega
  · generalize i * (M - H) = x at h3 ⊢
    generalize totalChunksOf size M H * (M - H) = y at h1 h3
    omega

/-- Behaviour of the multi-chunk loop when every remaining range is
non-empty: the final chunk array is the already-done prefix followed by
one settled chunk per range (consuming the oracle sequentially), the call
counter advances once per range, and the recording persisted by the last
iteration holds exactly the final chunk array. -/
theorem runChunksLoop_spec (oracle : Nat → Except String String) (total : Nat) :
    ∀ (ranges : List (Nat × Nat)) (i calls : Nat) (done : List TranscriptChunk)
      (rec : Recording) (trace : List Recording),
      (∀ q ∈ ranges, q.1 < q.2) →
      rec.transcriptChunks = done.reverse ++ suffixFrom i total →
      i + ranges.length = total →
      (runChunksLoop oracle total ranges i done calls rec trace).chunks =
        done.reverse ++
          (List.range ranges.length).map (fun k => settleChunk (i + k) (oracle (calls + k))) ∧
      (runChunksLoop oracle total ranges i done calls rec trace).calls =
        calls + ranges.length ∧
      (runChunksLoop oracle total ranges i done calls rec trace).record.transcriptChunks =
        (runChunksLoop oracle total ranges i done calls rec trace).chunks := by
  intro ranges
  induction ranges with
  | nil =>
    intro i calls done rec trace _ hrec htot
    have hz : total - i = 0 := by simp at htot; omega
    refine ⟨by simp [runChunksLoop], by simp [runChunksLoop], ?_⟩
    simp [runChunksLoop, hrec, suffixFrom, hz]
  | cons q rs ih =>
    intro i calls done rec trace hnz hrec htot
    have hq : q.1 < q.2 := hnz q (by simp)
    have hrs : ∀ p ∈ rs, p.1 < p.2 := fun p hp => hnz p (by simp [hp])
    have hrw :
        runChunksLoop oracle total (q :: rs) i done calls rec trace =
          runChunksLoop oracle total rs (i + 1)
            (settleChunk i (oracle calls) :: done) (calls + 1)
            (applyUpdates rec
              { transcriptChunks := some
                  ((settleChunk i (oracle calls) :: done).reverse ++ suffixFrom (i + 1) total),
                progress := some (jsRound95 (i + 1) total) })
            (applyUpdates rec
              { transcriptChunks := some
                  ((settleChunk i (oracle calls) :: done).reverse ++ suffixFrom (i + 1) total),
                progress := some (jsRound95 (i + 1) total) } :: trace) := by
      rw [runChunksLoop]
      rw [if_neg (by omega : ¬ q.2 ≤ q.1)]
    obtain ⟨ha, hb, hc⟩ := ih (i + 1) (calls + 1) (settleChunk i (oracle calls) :: done)
      (applyUpdates rec
        { transcriptChunks := some
            ((settleChunk i (oracle calls) :: done).reverse ++ suffixFrom (i + 1) total),
          progress := some (jsRound95 (i + 1) total) })
      (applyUpdates rec
        { transcriptChunks := some
            ((settleChunk i (oracle calls) :: done).reverse ++ suffixFrom (i + 1) total),
          progress := some (jsRound95 (i + 1) total) } :: trace)
      hrs (by simp [applyUpdates]) (by simp at htot; omega)
    refine ⟨?_, ?_, ?_⟩
    · rw [hrw, ha, List.reverse_cons, List.append_assoc]
      congr 1
      rw [List.length_cons, List.range_succ_eq_map, List.map_cons, List.map_map,
        List.singleton_append]
      congr 1
      apply List.map_congr_left
      intro k _
      simp only [Function.comp_apply, Nat.succ_eq_add_one]
      rw [show i + 1 + k = i + (k + 1) from by omega,
        show calls + 1 + k = calls + (k + 1) from by omega]
    · rw [hrw, hb, List.length_cons]
      omega
    · rw [hrw]
      exact hc

/-- Behaviour of a full multi-piece run (`M < blob.size`, `H < M`, no
completed short-circuit): every piece is attempted (one remote call per
piece, none aborts the loop), the finally persisted chunk array settles
piece `i` from the i-th oracle result, and the final status is
`completed` exactly when every call succeeded; final progress is 100. -/
theorem processRecording_multi_spec (M H : Nat) (r : Recording)
    (oracle : Nat → Except String String)
    (hHM : H < M) (hMs : M < r.blob.size)
    (hstat : ¬ (r.status = RecordingStatus.completed ∧ 0 < r.transcriptChunks.length)) :
    ∃ rec : Recording,
      (processRecording M H (some r) oracle).finalRec = some rec ∧
      (processRecording M H (some r) oracle).remoteCalls = totalChunksOf r.blob.size M H ∧
      rec.transcriptChunks =
        (List.range (totalChunksOf r.blob.size M H)).map (fun k => settleChunk k (oracle k)) ∧
      (rec.status = RecordingStatus.completed ↔
        ∀ i < totalChunksOf r.blob.size M H, (oracle i).isOk = true) ∧
      ((¬ ∀ i < totalChunksOf r.blob.size M H, (oracle i).isOk = true) →
        rec.status = RecordingStatus.failed) ∧
      rec.progress = 100 := by
  have hno : ¬ r.blob.size ≤ M := by omega
  obtain ⟨ha, hb, hc⟩ := runChunksLoop_spec oracle (totalChunksOf r.blob.size M H)
    (chunkRanges r.blob.size M H) 0 0 []
    (applyUpdates
      (applyUpdates r
        { status := some .transcribing, progress := some 5, transcriptChunks := some [] })
      { transcriptChunks := some (initialChunks (totalChunksOf r.blob.size M H)),
        progress := some 10 })
    []
    (chunkRanges_nonzero r.blob.size M H hHM hMs)
    (by
      simp [applyUpdates, initialChunks, suffixFrom, List.range_eq_range'])
    (by simp [chunkRanges])
  have hlen : (chunkRanges r.blob.size M H).length = totalChunksOf r.blob.size M H := by
    simp [chunkRanges]
  rw [hlen] at ha hb
  simp only [List.nil_append, List.reverse_nil, Nat.zero_add] at ha hb
  have hall :
      ((runChunksLoop oracle (totalChunksOf r.blob.size M H)
        (chunkRanges r.blob.size M H) 0 [] 0
        (applyUpdates
          (applyUpdates r
            { status := some .transcribing, progress := some 5, transcriptChunks := some [] })
          { transcriptChunks := some (initialChunks (totalChunksOf r.blob.size M H)),
            progress := some 10 })
        []).chunks.all (fun c => c.status == ChunkStatus.completed) = true) ↔
      ∀ i < totalChunksOf r.blob.size M H, (oracle i).isOk = true := by
    rw [ha, List.all_eq_true]
    constructor
    · intro h i hi
      have := h (settleChunk i (oracle i))
        (by simp only [List.mem_map, List.mem_range]; exact ⟨i, hi, rfl⟩)
      cases hoi : oracle i <;> simp [settleChunk, hoi, Except.isOk, Except.toBool] at this ⊢
    · intro h c hcmem
      simp only [List.mem_map, List.mem_range] at hcmem
      obtain ⟨i, hi, rfl⟩ := hcmem
      have := h i hi
      cases hoi : oracle i <;> simp [settleChunk, hoi, Except.isOk, Except.toBool] at this ⊢
  simp only [processRecording, hno, if_neg hstat, if_false]
  refine ⟨_, rfl, ?_, ?_, ?_, ?_, ?_⟩
  · exact hb
  · simp only [applyUpdates]
    simpa [ha] using hc
  · by_cases hok : ∀ i < totalChunksOf r.blob.size M H, (oracle i).isOk = true
    · rw [if_pos (hall.mpr hok)]
      exact iff_of_true (by simp [applyUpdates]) hok
    · rw [if_neg (fun h => hok (hall.mp h))]
      exact iff_of_false (by simp [applyUpdates]) hok
  · intro hnok
    rw [if_neg (fun h => hnok (hall.mp h))]
    simp [applyUpdates]
  · simp [applyUpdates]

/-- The settled chunk keeps the index it was settled at. -/
theorem settleChunk_index (i : Nat) (o : Except String String) :
    (settleChunk i o).index = i := by
  cases o <;> rfl

/-- Indexing a mapped range. -/
theorem map_range_getElem? {α : Type} (f : Nat → α) (n k : Nat) :
    ((List.range n).map f)[k]? = if k < n then some (f k) else none := by
  by_cases h : k < n
  · simp [List.getElem?_map, List.getElem?_range, h]
  · simp only [List.getElem?_map, if_neg h]
    rw [List.getElem?_eq_none (by simp; omega)]
    rfl

/-- C2.  In a multi-piece run, every piece is attempted (the call count
equals the piece count — no piece-level failure aborts the loop), a piece
whose remote call fails ends `failed` holding the error message, a piece
whose call succeeds ends `completed` holding its trimmed transcript, and
the final status is `completed` iff every piece succeeded, and `failed`
whenever any piece failed.  A subsequent single-piece retry of piece `j` that succeeds
rewrites only piece `j` (to `completed` with the trimmed retry
transcript) and leaves every other piece's status and content unchanged. -/
theorem c2_partial_failure_containment (M H : Nat) (r : Recording)
    (oracle : Nat → Except String String)
    (hHM : H < M) (hMs : M < r.blob.size)
    (hstat : ¬ (r.status = RecordingStatus.completed ∧ 0 < r.transcriptChunks.length)) :
    ∃ rec : Recording,
      (processRecording M H (some r) oracle).finalRec = some rec ∧
      (processRecording M H (some r) oracle).remoteCalls = totalChunksOf r.blob.size M H ∧
      rec.transcriptChunks.length = totalChunksOf r.blob.size M H ∧
      (∀ i m, i < totalChunksOf r.blob.size M H → oracle i = .error m →
        rec.transcriptChunks[i]? = some ⟨i, m, .failed⟩) ∧
      (∀ i t, i < totalChunksOf r.blob.size M H → oracle i = .ok t →
        rec.transcriptChunks[i]? = some ⟨i, jsTrim t, .completed⟩) ∧
      (rec.status = RecordingStatus.completed ↔
        ∀ i < totalChunksOf r.blob.size M H, (oracle i).isOk = true) ∧
      ((¬ ∀ i < totalChunksOf r.blob.size M H, (oracle i).isOk = true) →
        rec.status = RecordingStatus.failed) ∧
      (∀ j t k, k ≠ j →
        (handleRetryChunkTranscription rec.transcriptChunks j (.ok t))[k]? =
          rec.transcriptChunks[k]?) ∧
      (∀ j t, j < totalChunksOf r.blob.size M H →
        (handleRetryChunkTranscription rec.transcriptChunks j (.ok t))[j]? =
          some ⟨j, jsTrim t, .completed⟩) := by
  obtain ⟨rec, h1, h2, h3, h4, hfail, _h5⟩ :=
    processRecording_multi_spec M H r oracle hHM hMs hstat
  refine ⟨rec, h1, h2, ?_, ?_, ?_, h4, hfail, ?_, ?_⟩
  · rw [h3]; simp
  · intro i m hi hoi
    rw [h3, map_range_getElem?, if_pos hi, hoi]
    rfl
  · intro i t hi hoi
    rw [h3, map_range_getElem?, if_pos hi, hoi]
    rfl
  · intro j t k hk
    rw [h3]
    simp only [handleRetryChunkTranscription, List.map_map]
    rw [map_range_getElem?, map_range_getElem?]
    by_cases hkN : k < totalChunksOf r.blob.size M H
    · rw [if_pos hkN, if_pos hkN]
      simp [Function.comp, settleChunk_index, hk]
    · rw [if_neg hkN, if_neg hkN]
  · intro j t hj
    rw [h3]
    simp only [handleRetryChunkTranscription, List.map_map]
    rw [map_range_getElem?, if_pos hj]
    simp [Function.comp, settleChunk_index]

/-- Witness for `c2_partial_failure_containment`: a 4-piece run
(`size = 8`, `M = 3`, `H = 1`) where call 1 fails and the others
succeed. -/
theorem c2_partial_failure_containment_witness :
    (1 : Nat) < 3 ∧
    (3 : Nat) < (⟨1, "rec", 8, "audio/webm", .new, 0, [], none, ⟨8, 0⟩⟩ : Recording).blob.size ∧
    ∃ rec : Recording,
      (processRecording 3 1
          (some ⟨1, "rec", 8, "audio/webm", .new, 0, [], none, ⟨8, 0⟩⟩)
          (fun i => if i = 1 then .error "boom" else .ok " hi ")).finalRec = some rec ∧
      (processRecording 3 1
          (some ⟨1, "rec", 8, "audio/webm", .new, 0, [], none, ⟨8, 0⟩⟩)
          (fun i => if i = 1 then .error "boom" else .ok " hi ")).remoteCalls =
        totalChunksOf (⟨1, "rec", 8, "audio/webm", .new, 0, [], none,
          ⟨8, 0⟩⟩ : Recording).blob.size 3 1 ∧
      rec.transcriptChunks.length =
        totalChunksOf (⟨1, "rec", 8, "audio/webm", .new, 0, [], none,
          ⟨8, 0⟩⟩ : Recording).blob.size 3 1 ∧
      (∀ i m, i < totalChunksOf (⟨1, "rec", 8, "audio/webm", .new, 0, [], none,
          ⟨8, 0⟩⟩ : Recording).blob.size 3 1 →
        (fun i => if i = 1 then Except.error "boom" else Except.ok " hi ") i = .error m →
        rec.transcriptChunks[i]? = some ⟨i, m, .failed⟩) ∧
      (∀ i t, i < totalChunksOf (⟨1, "rec", 8, "audio/webm", .new, 0, [], none,
          ⟨8, 0⟩⟩ : Recording).blob.size 3 1 →
        (fun i => if i = 1 then Except.error "boom" else Except.ok " hi ") i = .ok t →
        rec.transcriptChunks[i]? = some ⟨i, jsTrim t, .completed⟩) ∧
      (rec.status = RecordingStatus.completed ↔
        ∀ i < totalChunksOf (⟨1, "rec", 8, "audio/webm", .new, 0, [], none,
          ⟨8, 0⟩⟩ : Recording).blob.size 3 1,
          ((fun i => if i = 1 then Except.error "boom" else Except.ok " hi ") i).isOk = true) ∧
      ((¬ ∀ i < totalChunksOf (⟨1, "rec", 8, "audio/webm", .new, 0, [], none,
          ⟨8, 0⟩⟩ : Recording).blob.size 3 1,
          ((fun i => if i = 1 then Except.error "boom" else Except.ok " hi ") i).isOk = true) →
        rec.status = RecordingStatus.failed) ∧
      (∀ j t k, k ≠ j →
        (handleRetryChunkTranscription rec.transcriptChunks j (.ok t))[k]? =
          rec.transcriptChunks[k]?) ∧
      (∀ j t, j < totalChunksOf (⟨1, "rec", 8, "audio/webm", .new, 0, [], none,
          ⟨8, 0⟩⟩ : Recording).blob.size 3 1 →
        (handleRetryChunkTranscription rec.transcriptChunks j (.ok t))[j]? =
          some ⟨j, jsTrim t, .completed⟩) :=
  ⟨by decide, by decide,
    c2_partial_failure_containment 3 1
      ⟨1, "rec", 8, "audio/webm", .new, 0, [], none, ⟨8, 0⟩⟩
      (fun i => if i = 1 then .error "boom" else .ok " hi ")
      (by decide) (by decide) (by decide)⟩

/-- C9.  With the add-to-vocabulary option enabled and a non-degenerate
correction, the derived candidate is `⟨now, newText.trim(),
'Corrected from "<oldText.trim()>"'⟩`; when an existing item's word
matches `newText.trim()` case-insensitively the vocabulary is returned
unchanged, otherwise exactly that candidate is appended.  Both the
transcript-edit and the notes-edit handlers behave identically. -/
theorem c9_vocabulary_dedup_and_derivation
    (chunks : List TranscriptChunk) (vocab : List VocabularyItem)
    (generatedNotes oldText newText : String) (replaceAll : Bool)
    (chunkIndex start stop nstart nstop now : Nat)
    (hne : jsTrim newText ≠ "") :
    ((∃ item ∈ vocab, jsToLower item.word = jsToLower (jsTrim newText)) →
      (handleEditAndUpdateVocabulary chunks vocab oldText newText replaceAll true
        chunkIndex start stop now).vocabulary = vocab ∧
      (handleNoteEditAndUpdateVocabulary generatedNotes vocab oldText newText replaceAll true
        nstart nstop now).2 = vocab) ∧
    ((¬ ∃ item ∈ vocab, jsToLower item.word = jsToLower (jsTrim newText)) →
      (handleEditAndUpdateVocabulary chunks vocab oldText newText replaceAll true
        chunkIndex start stop now).vocabulary =
        vocab ++ [⟨now, jsTrim newText, "Corrected from \"" ++ jsTrim oldText ++ "\""⟩] ∧
      (handleNoteEditAndUpdateVocabulary generatedNotes vocab oldText newText replaceAll true
        nstart nstop now).2 =
        vocab ++ [⟨now, jsTrim newText, "Corrected from \"" ++ jsTrim oldText ++ "\""⟩]) := by
  have hkey :
      (vocab.any (fun item => jsToLower item.word == jsToLower (jsTrim newText)) = true) ↔
      (∃ item ∈ vocab, jsToLower item.word = jsToLower (jsTrim newText)) := by
    simp [List.any_eq_true]
  constructor
  · intro hex
    constructor <;>
      simp [handleEditAndUpdateVocabulary, handleNoteEditAndUpdateVocabulary, hne,
        deriveVocabulary, hkey.mpr hex]
  · intro hnex
    have hfalse :
        vocab.any (fun item => jsToLower item.word == jsToLower (jsTrim newText)) = false := by
      rcases hval : vocab.any (fun item => jsToLower item.word == jsToLower (jsTrim newText)) with
        _ | _
      · rfl
      · exact absurd (hkey.mp hval) hnex
    constructor <;>
      simp [handleEditAndUpdateVocabulary, handleNoteEditAndUpdateVocabulary, hne,
        deriveVocabulary, hfalse]

/-- Witness for `c9_vocabulary_dedup_and_derivation`: adding `"API"` when
`"api"` exists leaves the vocabulary unchanged; adding `"Kubernetes"` to
the same list appends the derived candidate. -/
theorem c9_vocabulary_dedup_and_derivation_witness :
    jsTrim "API" ≠ "" ∧
    (handleEditAndUpdateVocabulary [] [⟨1, "api", "d"⟩] "apy" "API" true true 0 0 0 99).vocabulary =
      [⟨1, "api", "d"⟩] ∧
    jsTrim "Kubernetes" ≠ "" ∧
    (handleEditAndUpdateVocabulary [] [⟨1, "api", "d"⟩] "kubernets" "Kubernetes" true true
        0 0 0 99).vocabulary =
      [⟨1, "api", "d"⟩, ⟨99, "Kubernetes", "Corrected from \"kubernets\""⟩] := by
  refine ⟨by decide, ?_, by decide, ?_⟩
  · exact ((c9_vocabulary_dedup_and_derivation [] [⟨1, "api", "d"⟩] "" "apy" "API" true
      0 0 0 0 0 99 (by decide)).1 ⟨⟨1, "api", "d"⟩, by decide, by decide⟩).1
  · exact ((c9_vocabulary_dedup_and_derivation [] [⟨1, "api", "d"⟩] "" "kubernets" "Kubernetes"
      true 0 0 0 0 0 99 (by decide)).2 (by decide)).1

/-- C10.  The recording-store merge: on a present key the promise
resolves, the merged record replaces exactly the fields present in the
partial update and preserves every other field — `id` (which the update
cannot name) and the binary payload included — and every other key of the
store is untouched; on an absent key the call rejects and the store is
unchanged.  `hwf` is the IndexedDB keyPath invariant (a stored record's
`id` equals its key). -/
theorem c10_updateRecording_frame (store : RecordingStore) (id : Nat) (u : RecordingUpdates)
    (hwf : ∀ k rec, store k = some rec → rec.id = k) :
    (∀ d, store id = some d →
      (updateRecording store id u).2 = .ok () ∧
      (updateRecording store id u).1 id = some (applyUpdates d u) ∧
      (∀ k, k ≠ id → (updateRecording store id u).1 k = store k) ∧
      (applyUpdates d u).id = d.id ∧
      (u.name = none → (applyUpdates d u).name = d.name) ∧
      (∀ v, u.name = some v → (applyUpdates d u).name = v) ∧
      (u.size = none → (applyUpdates d u).size = d.size) ∧
      (∀ v, u.size = some v → (applyUpdates d u).size = v) ∧
      (u.mimeType = none → (applyUpdates d u).mimeType = d.mimeType) ∧
      (∀ v, u.mimeType = some v → (applyUpdates d u).mimeType = v) ∧
      (u.status = none → (applyUpdates d u).status = d.status) ∧
      (∀ v, u.status = some v → (applyUpdates d u).status = v) ∧
      (u.progress = none → (applyUpdates d u).progress = d.progress) ∧
      (∀ v, u.progress = some v → (applyUpdates d u).progress = v) ∧
      (u.transcriptChunks = none →
        (applyUpdates d u).transcriptChunks = d.transcriptChunks) ∧
      (∀ v, u.transcriptChunks = some v → (applyUpdates d u).transcriptChunks = v) ∧
      (u.formattedNotes = none → (applyUpdates d u).formattedNotes = d.formattedNotes) ∧
      (∀ v, u.formattedNotes = some v → (applyUpdates d u).formattedNotes = some v) ∧
      (u.blob = none → (applyUpdates d u).blob = d.blob) ∧
      (∀ v, u.blob = some v → (applyUpdates d u).blob = v)) ∧
    (store id = none →
      updateRecording store id u = (store, .error "Recording not found for update.")) := by
  constructor
  · intro d hd
    have hid : (applyUpdates d u).id = id := by
      rw [show (applyUpdates d u).id = d.id from rfl, hwf id d hd]
    refine ⟨by simp [updateRecording, hd], ?_, ?_, rfl, ?_, ?_, ?_, ?_, ?_, ?_, ?_, ?_,
      ?_, ?_, ?_, ?_, ?_, ?_, ?_, ?_⟩
    · simp [updateRecording, hd, hid]
    · intro k hk
      simp [updateRecording, hd, hid, hk]
    all_goals
      first
        | (intro h; simp [applyUpdates, h])
        | (intro v h; simp [applyUpdates, h])
  · intro hnone
    simp [updateRecording, hnone]

/-- Witness for `c10_updateRecording_frame`: a one-record store; renaming
record 7 preserves its id, payload and chunks and leaves key 3 untouched;
updating absent key 9 rejects and changes nothing. -/
theorem c10_updateRecording_frame_witness :
    (updateRecording
        (fun k => if k = 7 then some ⟨7, "n", 5, "a", .new, 0, [], none, ⟨5, 0⟩⟩ else none)
        7 { name := some "renamed" }).2 = .ok () ∧
    (updateRecording
        (fun k => if k = 7 then some ⟨7, "n", 5, "a", .new, 0, [], none, ⟨5, 0⟩⟩ else none)
        7 { name := some "renamed" }).1 7 =
      some (applyUpdates ⟨7, "n", 5, "a", .new, 0, [], none, ⟨5, 0⟩⟩ { name := some "renamed" }) ∧
    (updateRecording
        (fun k => if k = 7 then some ⟨7, "n", 5, "a", .new, 0, [], none, ⟨5, 0⟩⟩ else none)
        7 { name := some "renamed" }).1 3 =
      (fun k => if k = 7 then some (⟨7, "n", 5, "a", .new, 0, [], none,
        ⟨5, 0⟩⟩ : Recording) else none) 3 ∧
    (applyUpdates ⟨7, "n", 5, "a", .new, 0, [], none, ⟨5, 0⟩⟩
      { name := some "renamed" }).blob = Blob.mk 5 0 ∧
    updateRecording
        (fun k => if k = 7 then some ⟨7, "n", 5, "a", .new, 0, [], none, ⟨5, 0⟩⟩ else none)
        9 { name := some "renamed" } =
      ((fun k => if k = 7 then some ⟨7, "n", 5, "a", .new, 0, [], none, ⟨5, 0⟩⟩ else none),
        .error "Recording not found for update.") := by
  have hwf : ∀ k rec,
      (fun k => if k = 7 then some (⟨7, "n", 5, "a", .new, 0, [], none,
        ⟨5, 0⟩⟩ : Recording) else none) k = some rec → rec.id = k := by
    intro k rec h
    by_cases hk : k = 7
    · subst hk
      simp at h
      rw [← h]
    · simp [hk] at h
  obtain ⟨hfound, habsent⟩ := c10_updateRecording_frame
    (fun k => if k = 7 then some ⟨7, "n", 5, "a", .new, 0, [], none, ⟨5, 0⟩⟩ else none)
    7 { name := some "renamed" } hwf
  obtain ⟨ha, hb, hcframe, _, _, _, _, _, _, _, _, _, _, _, _, _, _, _, hblob, _⟩ :=
    hfound ⟨7, "n", 5, "a", .new, 0, [], none, ⟨5, 0⟩⟩ (by simp)
  refine ⟨ha, hb, hcframe 3 (by decide), hblob rfl, ?_⟩
  exact (c10_updateRecording_frame
    (fun k => if k = 7 then some ⟨7, "n", 5, "a", .new, 0, [], none, ⟨5, 0⟩⟩ else none)
    9 { name := some "renamed" } hwf).2 (by simp)

/-- The pattern source built by `escapeRegExp` always parses as an
escaped literal denoting the original string: `new RegExp(escapeRegExp s,
'g')` cannot throw, and the compiled regex matches exactly the literal
occurrences of `s`. -/
theorem parseEscapedLiteral_foldr (l : List Char) :
    parseEscapedLiteral (l.foldr (fun c acc =>
      if c ∈ regexSpecialChars then '\\' :: c :: acc else c :: acc) []) = some l := by
  induction l with
  | nil => rfl
  | cons c t ih =>
    by_cases hc : c ∈ regexSpecialChars
    · simp only [List.foldr_cons, if_pos hc]
      rw [parseEscapedLiteral.eq_def]
      simp [hc, ih]
    · have hcb : c ≠ '\\' := fun h => hc (by rw [h]; decide)
      simp only [List.foldr_cons, if_neg hc]
      rw [parseEscapedLiteral.eq_def]
      simp [hc, hcb, ih]

/-- `escapeRegExp` composed with the escaped-literal interpretation is the
identity. -/
theorem parseEscapedLiteral_escapeRegExp (s : String) :
    parseEscapedLiteral (escapeRegExp s).data = some s.data :=
  parseEscapedLiteral_foldr s.data

/-- A replacement string containing no `'$'` is inserted verbatim by
`GetSubstitution`. -/
theorem getSubstitution_no_dollar (matched preceding following repl : List Char)
    (h : '$' ∉ repl) :
    getSubstitution matched preceding following repl = repl := by
  induction repl with
  | nil => rfl
  | cons c rest ih =>
    have hc : ¬ c = '$' := fun hch => h (by rw [← hch]; exact List.mem_cons_self c rest)
    have ht : '$' ∉ rest := fun hm => h (List.mem_cons_of_mem c hm)
    rw [getSubstitution.eq_def]
    simp [hc, ih ht]

/-- With a `'$'`-free replacement, the JavaScript global replace coincides
with the spec's literal global replacement. -/
theorem jsReplaceGlobalAux_no_dollar (needle repl : List Char) (h : '$' ∉ repl) :
    ∀ (fuel : Nat) (before rem : List Char),
      jsReplaceGlobalAux needle repl fuel before rem =
        replaceAllLiteralSpecAux needle repl fuel rem := by
  intro fuel
  induction fuel with
  | zero => intro before rem; rfl
  | succ n ih =>
    intro before rem
    simp only [jsReplaceGlobalAux, replaceAllLiteralSpecAux]
    cases hfind : findSub needle rem with
    | none => rfl
    | some k =>
      by_cases hlen : needle.length = 0
      · cases rem with
        | nil => simp [hlen, getSubstitution_no_dollar _ _ _ _ h]
        | cons c rest => simp [hlen, getSubstitution_no_dollar _ _ _ _ h, ih]
      · simp [hlen, getSubstitution_no_dollar _ _ _ _ h, ih]

/-- The handlers' escaped-regex replace, on a `'$'`-free replacement,
equals the spec's literal replace-all. -/
theorem replaceWithEscapedRegex_no_dollar (content oldText newText : String)
    (h : '$' ∉ newText.data) :
    replaceWithEscapedRegex content oldText newText =
      replaceAllLiteralSpec content oldText newText := by
  simp only [replaceWithEscapedRegex, parseEscapedLiteral_escapeRegExp]
  simp only [jsReplaceGlobal, replaceAllLiteralSpec]
  rw [jsReplaceGlobalAux_no_dollar _ _ h]

/-- Pointwise-equal functions give equal indexed maps. -/
theorem mapWithIndexFrom_congr {α β : Type} (f g : Nat → α → β)
    (h : ∀ i a, f i a = g i a) :
    ∀ (i : Nat) (l : List α), mapWithIndexFrom f i l = mapWithIndexFrom g i l := by
  intro i l
  induction l generalizing i with
  | nil => rfl
  | cons a t ih => simp [mapWithIndexFrom, h, ih]

/-- An indexed map that ignores the index is a plain map. -/
theorem mapWithIndexFrom_const {α β : Type} (g : α → β) :
    ∀ (i : Nat) (l : List α), mapWithIndexFrom (fun _ a => g a) i l = l.map g := by
  intro i l
  induction l generalizing i with
  | nil => rfl
  | cons a t ih => simp [mapWithIndexFrom, ih]

/-- C7 counterexample.  The replacement string is passed to
`String.prototype.replace` unescaped, so `'$'`-substitution patterns in
the new text are expanded: replacing `"a"` by `"$&b"` in the chunk
`"a"` yields `"ab"` (`$&` re-inserts the match) instead of the literal
`"$&b"` the claim promises. -/
theorem c7_counterexample :
    (handleEditAndUpdateVocabulary [⟨0, "a", .completed⟩] [] "a" "$&b" true false
        0 0 0 0).chunks = [⟨0, "ab", .completed⟩] ∧
    [⟨0, "ab", ChunkStatus.completed⟩] ≠
      [(⟨0, "$&b", ChunkStatus.completed⟩ : TranscriptChunk)] := by
  decide

/-- C7 as amended: for a replacement that trims non-empty and contains no
`'$'` (the handler no-ops on whitespace-only replacements, and `'$'`
sequences undergo JavaScript substitution), `replaceAll` mode replaces
exactly the literal occurrences of `oldText` — whatever regex-special
characters it contains, since `escapeRegExp`'s output always compiles to
a literal pattern (`parseEscapedLiteral_escapeRegExp`), so nothing throws
— in every chunk (and in the whole notes text); `singleOccurrence` mode
splices `[start, stop)` of the addressed chunk only, leaving every other
chunk unchanged. -/
theorem c7_literal_replacement (chunks : List TranscriptChunk)
    (vocab : List VocabularyItem) (generatedNotes oldText newText : String)
    (addToVocabulary : Bool) (chunkIndex start stop now nstart nstop : Nat)
    (hne : jsTrim newText ≠ "") (hd : '$' ∉ newText.data) :
    (handleEditAndUpdateVocabulary chunks vocab oldText newText true addToVocabulary
        chunkIndex start stop now).chunks =
      chunks.map (fun c =>
        { c with content := replaceAllLiteralSpec c.content oldText newText }) ∧
    (handleEditAndUpdateVocabulary chunks vocab oldText newText false addToVocabulary
        chunkIndex start stop now).chunks =
      mapWithIndex (fun index c =>
        if index = chunkIndex then
          { c with content :=
              jsSubstring c.content 0 start ++ newText ++ jsSubstringFrom c.content stop }
        else c) chunks ∧
    (handleNoteEditAndUpdateVocabulary generatedNotes vocab oldText newText true
        addToVocabulary nstart nstop now).1 =
      replaceAllLiteralSpec generatedNotes oldText newText ∧
    (handleNoteEditAndUpdateVocabulary generatedNotes vocab oldText newText false
        addToVocabulary nstart nstop now).1 =
      jsSubstring generatedNotes 0 nstart ++ newText ++ jsSubstringFrom generatedNotes nstop := by
  refine ⟨?_, ?_, ?_, ?_⟩
  · simp only [handleEditAndUpdateVocabulary, if_neg hne, mapWithIndex]
    rw [mapWithIndexFrom_congr _
      (fun _ c => { c with content := replaceAllLiteralSpec c.content oldText newText })
      (fun i a => by simp [replaceWithEscapedRegex_no_dollar _ _ _ hd])]
    exact mapWithIndexFrom_const _ 0 chunks
  · simp only [handleEditAndUpdateVocabulary, if_neg hne, mapWithIndex]
    apply mapWithIndexFrom_congr
    intro i a
    by_cases hci : i = chunkIndex <;> simp [hci]
  · simp [handleNoteEditAndUpdateVocabulary, if_neg hne,
      replaceWithEscapedRegex_no_dollar _ _ _ hd]
  · simp [handleNoteEditAndUpdateVocabulary, if_neg hne]

/-- Witness for `c7_literal_replacement`: replacing the regex-special
`"C++ (v1)"` by `"Cpp"` across one chunk, and the spec-side literal
replacement it equals, evaluated. -/
theorem c7_literal_replacement_witness :
    jsTrim "Cpp" ≠ "" ∧ '$' ∉ "Cpp".data ∧
    (handleEditAndUpdateVocabulary [⟨0, "use C++ (v1) now", .completed⟩] [] "C++ (v1)" "Cpp"
        true false 0 0 0 0).chunks =
      [(⟨0, "use C++ (v1) now", ChunkStatus.completed⟩ : TranscriptChunk)].map (fun c =>
        { c with content := replaceAllLiteralSpec c.content "C++ (v1)" "Cpp" }) ∧
    replaceAllLiteralSpec "use C++ (v1) now" "C++ (v1)" "Cpp" = "use Cpp now" :=
  ⟨by decide, by decide,
    (c7_literal_replacement [⟨0, "use C++ (v1) now", .completed⟩] [] "" "C++ (v1)" "Cpp"
      false 0 0 0 0 0 0 (by decide) (by decide)).1,
    by decide⟩

end MeetingTranscriber
